import Mathlib

/-!
Verification development for the mol* non-covalent interaction detection
engine (`mol-model-props/computed/interactions`).

The embedding below translates the TypeScript sources into Lean:

- the per-unit feature store and its builder (`features.ts`:
  `FeaturesBuilder.create`, `Features.createElementsIndex`,
  `FeaturesBuilder.getFeatures`),
- the halogen-bond feature providers and tester (`halogen-bonds.ts`:
  `addUnitHalogenDonors`, `addUnitHalogenAcceptors`, `testHalogenBond`,
  `HalogenBondsProvider.createTester`),
- the intra-unit pair scan (`links.ts`: `addUnitLinks`) over the
  spatial-grid-lookup collaborator.

Modelling conventions:

- Machine numbers (JS doubles / Float32 centers) are modelled as exact
  rationals; the centroid arithmetic of the builder is division-by-count on
  rationals, so "within floating-point tolerance" statements are settled
  exactly.
- JS `Int32Array` buffers are modelled as `List ℕ`: `List.set` silently
  ignores out-of-range writes, exactly like a JS typed-array store, and
  fresh buffers are zero-filled (`List.replicate _ 0`).
- Angles: the source converts configured degree values to radians with
  `degToRad x = x * π / 180` and compares them against radian outputs of the
  geometry collaborator.  Multiplication by the positive constant `π / 180`
  is a strictly monotone linear map applied uniformly to every angle
  quantity appearing in a comparison, so every comparison is preserved if
  all angles are kept on the degree scale instead.  The embedding therefore
  measures all angles in degrees and `degToRad` is the identity of that
  rescaled representation; `OptimalHalogenAngle` is `180` and
  `OptimalAcceptorAngle` is `120`.
- Code of the repository that is not part of the sources (the `common.ts`
  enums, the chemistry accessors `typeSymbol` / `altLoc` /
  `eachBondedAtom`, the geometry collaborator `calcAngles`, the
  `GridLookup3D` spatial index and the `ChunkedArray` growable buffer) is
  modelled from the specification; each such definition carries a doc
  comment starting with `Modelled from the spec:`.
-/

/-- Modelled from the spec: the feature `type` enum of `common.ts` (not among
the sources); only the constructors the halogen-bond subsystem touches are
needed, plus `Unknown` standing for every other tag. -/
inductive FeatureType where
  | Unknown
  | HydrogenDonor
  | HydrogenAcceptor
  | HalogenDonor
  | HalogenAcceptor
  deriving DecidableEq, Repr

/-- Modelled from the spec: the `InteractionType` enum of `common.ts` (not
among the sources); only the constructors used here are needed. -/
inductive InteractionType where
  | Unknown
  | HydrogenBond
  | HalogenBond
  deriving DecidableEq, Repr

/-- Feature `group` values: a secondary classifier bitmask (`FeatureGroup` in
`common.ts`); `0` is `FeatureGroup.None`. -/
abbrev FeatureGroup := ℕ

/-- Running accumulation state of the features builder: the `State` record of
`FeaturesBuilder.create` in `features.ts` (fields `x`, `y`, `z`, `offset`,
`count`). -/
structure AccumState where
  x : ℚ
  y : ℚ
  z : ℚ
  offset : ℕ
  count : ℕ
  deriving DecidableEq, Repr

/-- Observable state of a `FeaturesBuilder`: the seven `ChunkedArray` buffers
of `FeaturesBuilder.create` plus the accumulation state.  Modelled from the
spec: `ChunkedArray` (not among the sources) is an amortized-doubling
growable buffer whose observable content is the sequence of appended
elements (`ChunkedArray.add` appends, `elementCount` is the length,
`compact` returns the exact-size array), so each buffer is a Lean list. -/
structure BuilderState where
  xCenters : List ℚ
  yCenters : List ℚ
  zCenters : List ℚ
  types : List FeatureType
  groups : List FeatureGroup
  offsets : List ℕ
  members : List ℕ
  accum : AccumState
  deriving DecidableEq, Repr

/-- Fresh builder of `FeaturesBuilder.create`: all buffers empty and
`state = \x7b x: 0, y: 0, z: 0, offset: 0, count: 0 \x7d`. -/
def FeaturesBuilder.create : BuilderState :=
  { xCenters := [], yCenters := [], zCenters := [], types := [], groups := []
    offsets := [], members := [], accum := ⟨0, 0, 0, 0, 0⟩ }

/-- The `clearState` closure of `FeaturesBuilder.create`: zero the coordinate
sums, remember the current member count as the next feature's offset, and
reset the accumulated count. -/
def FeaturesBuilder.clearState (b : BuilderState) : BuilderState :=
  { b with accum := ⟨0, 0, 0, b.members.length, 0⟩ }

/-- The `pushMember` closure of `FeaturesBuilder.create`: append the member
atom index and add the coordinates to the running sums.  Note that the
source does not touch `state.count` here. -/
def FeaturesBuilder.pushMember (x y z : ℚ) (member : ℕ) (b : BuilderState) :
    BuilderState :=
  { b with
    members := b.members ++ [member]
    accum := { b.accum with
      x := b.accum.x + x, y := b.accum.y + y, z := b.accum.z + z } }

/-- The `addState` closure of `FeaturesBuilder.create`: if the accumulated
count is zero return unchanged, otherwise append the type, group, the
centroid `sum / count` and the recorded offset.  Note that the source resets
nothing afterwards. -/
def FeaturesBuilder.addState (ty : FeatureType) (group : FeatureGroup)
    (b : BuilderState) : BuilderState :=
  if b.accum.count = 0 then b
  else
    { b with
      types := b.types ++ [ty]
      groups := b.groups ++ [group]
      xCenters := b.xCenters ++ [b.accum.x / (b.accum.count : ℚ)]
      yCenters := b.yCenters ++ [b.accum.y / (b.accum.count : ℚ)]
      zCenters := b.zCenters ++ [b.accum.z / (b.accum.count : ℚ)]
      offsets := b.offsets ++ [b.accum.offset] }

/-- The `addOne` closure of `FeaturesBuilder.create`: append type, group, the
atom position as center, the current member count as offset, and the single
member. -/
def FeaturesBuilder.addOne (ty : FeatureType) (group : FeatureGroup)
    (x y z : ℚ) (member : ℕ) (b : BuilderState) : BuilderState :=
  { b with
    types := b.types ++ [ty]
    groups := b.groups ++ [group]
    xCenters := b.xCenters ++ [x]
    yCenters := b.yCenters ++ [y]
    zCenters := b.zCenters ++ [z]
    offsets := b.offsets ++ [b.members.length]
    members := b.members ++ [member] }

/-- One builder call, for stating properties about arbitrary call
sequences against a `FeaturesBuilder`. -/
inductive BuilderOp where
  | clearState
  | pushMember (x y z : ℚ) (member : ℕ)
  | addState (ty : FeatureType) (group : FeatureGroup)
  | addOne (ty : FeatureType) (group : FeatureGroup) (x y z : ℚ) (member : ℕ)
  deriving Repr

/-- Apply one builder call to a builder state. -/
def applyOp (b : BuilderState) : BuilderOp → BuilderState
  | .clearState => FeaturesBuilder.clearState b
  | .pushMember x y z m => FeaturesBuilder.pushMember x y z m b
  | .addState ty g => FeaturesBuilder.addState ty g b
  | .addOne ty g x y z m => FeaturesBuilder.addOne ty g x y z m b

/-- Run a sequence of builder calls on a fresh builder. -/
def runOps (ops : List BuilderOp) : BuilderState :=
  ops.foldl applyOp FeaturesBuilder.create

/-- The columnar `Features.Data` record of `features.ts`. -/
structure FeaturesData where
  count : ℕ
  x : List ℚ
  y : List ℚ
  z : List ℚ
  types : List FeatureType
  groups : List FeatureGroup
  offsets : List ℕ
  members : List ℕ
  deriving DecidableEq, Repr

/-- The `getFeatures` closure of `FeaturesBuilder.create`, restricted to the
columnar data it assembles: append the final offset (the total member
count), compact every buffer, and take `count` from the centers buffer.  The
two lazily derived indexes of `Features.create` are `Features.createElementsIndex`
below and the spatial lookup `gridFind` further down. -/
def FeaturesBuilder.getFeaturesData (b : BuilderState) : FeaturesData :=
  { count := b.xCenters.length
    x := b.xCenters
    y := b.yCenters
    z := b.zCenters
    types := b.types
    groups := b.groups
    offsets := b.offsets ++ [b.members.length]
    members := b.members }

/-- The `Features.ElementsIndex` record of `features.ts`: feature indices
bucketed per atom, range for atom `a` is `offsets[a]` to `offsets[a + 1]`. -/
structure ElementsIndex where
  indices : List ℕ
  offsets : List ℕ
  deriving DecidableEq, Repr

/-- Translation of `Features.createElementsIndex` of `features.ts`.  The
three `Int32Array` buffers are zero-filled lists; `List.set` drops
out-of-range stores exactly like a JS typed-array write.  Note the sizing
loop of the source iterates `i < count` (the number of features), while the
fill loop iterates every member of every feature. -/
def Features.createElementsIndex (data : FeaturesData) (elementsCount : ℕ) :
    ElementsIndex :=
  let bucketSizes := (List.range data.count).foldl
    (fun bs i => bs.set (data.members.getD i 0) (bs.getD (data.members.getD i 0) 0 + 1))
    (List.replicate elementsCount 0)
  let offsetsAcc := (List.range elementsCount).foldl
    (fun (p : List ℕ × ℕ) i => (p.1.set i p.2, p.2 + bucketSizes.getD i 0))
    (List.replicate (elementsCount + 1) 0, 0)
  let offsets := offsetsAcc.1.set elementsCount offsetsAcc.2
  let filled := (List.range data.count).foldl
    (fun (q : List ℕ × List ℕ) i =>
      (List.range' (data.offsets.getD i 0)
          (data.offsets.getD (i + 1) 0 - data.offsets.getD i 0)).foldl
        (fun (q : List ℕ × List ℕ) j =>
          let a := data.members.getD j 0
          let oa := offsets.getD a 0 + q.2.getD a 0
          (q.1.set oa i, q.2.set a (q.2.getD a 0 + 1)))
        q)
    (List.replicate offsetsAcc.2 0, List.replicate elementsCount 0)
  { indices := filled.1, offsets := offsets }

/-- Contiguous slice `l[a .. b-1]` read with JS indexing defaults. -/
def sliceD (l : List ℕ) (a b : ℕ) : List ℕ :=
  (List.range' a (b - a)).map (fun j => l.getD j 0)

/-- Member atoms recorded for feature `f`: `members[offsets[f] .. offsets[f+1]-1]`,
the range documented on `Features.members`. -/
def FeaturesData.memberAtoms (d : FeaturesData) (f : ℕ) : List ℕ :=
  sliceD d.members (d.offsets.getD f 0) (d.offsets.getD (f + 1) 0)

/-- Features listed for atom `a` by an elements index:
`indices[offsets[a] .. offsets[a+1]-1]`, the range documented on
`Features.ElementsIndex`. -/
def ElementsIndex.featuresOfAtom (e : ElementsIndex) (a : ℕ) : List ℕ :=
  sliceD e.indices (e.offsets.getD a 0) (e.offsets.getD (a + 1) 0)

/-- Atomic unit view, carrying the read-only per-atom data the halogen-bond
subsystem consumes.  `elements` maps unit-local indices to model atom
indices (`unit.elements`); the remaining fields are the model-level atom
columns of the structure/model layer: coordinates
(`unit.model.atomicConformation`), residue index (`unit.residueIndex`),
element type symbol and alternate-location id, plus the bonding relation.
Modelled from the spec: of these only `elements`, `residueIndex` and the
conformation are used directly by the sources; the symbol / altloc columns
and the bonding relation back the accessors below, which are not among the
sources. -/
structure AUnit where
  elements : List ℕ
  x : ℕ → ℚ
  y : ℕ → ℚ
  z : ℕ → ℚ
  residueIndex : ℕ → ℕ
  typeSymbolCol : ℕ → String
  labelAltIdCol : ℕ → String
  bonded : ℕ → List ℕ

/-- Modelled from the spec: the chemistry accessor `typeSymbol(unit, index)`
(`chemistry/util.ts`, not among the sources) — the element symbol of the
atom at unit-local `index`, read from the model column at
`unit.elements[index]`. -/
def typeSymbol (u : AUnit) (i : ℕ) : String :=
  u.typeSymbolCol (u.elements.getD i 0)

/-- Modelled from the spec: the chemistry accessor `altLoc(unit, index)`
(`chemistry/util.ts`, not among the sources) — the alternate-location id of
the atom at unit-local `index`; the empty string means "no altloc defined"
(JS falsy). -/
def altLoc (u : AUnit) (i : ℕ) : String :=
  u.labelAltIdCol (u.elements.getD i 0)

/-- Structure view: the halogen-bond tester reads nothing from the
structure except through the geometry collaborator, which we carry here.
Modelled from the spec: `calcAngles(structure, unitA, indexA, unitB, indexB)`
(`chemistry/geometry.ts`, not among the sources) returns the measured angles
`∠(C, A, B)` for each heavy atom `C` bonded to atom `A` — one angle per
bonded neighbor, on the degree scale of this embedding. -/
structure MolStructure where
  calcAngles : AUnit → ℕ → AUnit → ℕ → List ℚ

/-- The `halBondElements` list of `halogen-bonds.ts`: Cl, Br, I, At (not F). -/
def halBondElements : List String := ["CL", "BR", "I", "AT"]

/-- The acceptor element list `X` of `halogen-bonds.ts`: N, O, S. -/
def halAccX : List String := ["N", "O", "S"]

/-- The acceptor neighbor element list `Y` of `halogen-bonds.ts`: C, N, P, S. -/
def halAccY : List String := ["C", "N", "P", "S"]

/-- Translation of `addUnitHalogenDonors` of `halogen-bonds.ts`: for every
unit atom whose element is one of `halBondElements`, add a single-atom
`HalogenDonor` feature at the atom's position. -/
def addUnitHalogenDonors (_s : MolStructure) (u : AUnit) (b : BuilderState) :
    BuilderState :=
  (List.range u.elements.length).foldl
    (fun b i =>
      let element := typeSymbol u i
      if halBondElements.contains element then
        FeaturesBuilder.addOne FeatureType.HalogenDonor 0
          (u.x (u.elements.getD i 0)) (u.y (u.elements.getD i 0))
          (u.z (u.elements.getD i 0)) i b
      else b)
    b

/-- Loop body of `addUnitHalogenAcceptors` of `halogen-bonds.ts` for unit
atom `i`: if the atom's element is in `X = [N, O, S]` and some bonded atom
has element in `Y = [C, N, P, S]` (the `flag` set through `eachBondedAtom`),
add a single-atom `HalogenAcceptor` feature at the atom's position.
Modelled from the spec: `eachBondedAtom` (not among the sources) enumerates
the atoms bonded to the given atom; here as the unit-local neighbor list
`u.bonded i`. -/
def halAcceptorStep (u : AUnit) (b : BuilderState) (i : ℕ) : BuilderState :=
  let element := typeSymbol u i
  if halAccX.contains element then
    let flag := (u.bonded i).any (fun j => halAccY.contains (typeSymbol u j))
    if flag then
      FeaturesBuilder.addOne FeatureType.HalogenAcceptor 0
        (u.x (u.elements.getD i 0)) (u.y (u.elements.getD i 0))
        (u.z (u.elements.getD i 0)) i b
    else b
  else b

/-- Translation of `addUnitHalogenAcceptors` of `halogen-bonds.ts`: run
`halAcceptorStep` over every unit atom in scan order. -/
def addUnitHalogenAcceptors (_s : MolStructure) (u : AUnit) (b : BuilderState) :
    BuilderState :=
  (List.range u.elements.length).foldl (halAcceptorStep u) b

/-- The `isHalogenBond` type test of `halogen-bonds.ts`. -/
def isHalogenBond (ti tj : FeatureType) : Bool :=
  (ti == FeatureType.HalogenAcceptor && tj == FeatureType.HalogenDonor) ||
  (ti == FeatureType.HalogenDonor && tj == FeatureType.HalogenAcceptor)

/-- Angle conversion `degToRad` of `mol-math/misc`.  As laid out in the file
header, every angle of this embedding lives on the degree scale — the
uniform rescaling by `π / 180` that the source applies preserves every
comparison — so the conversion is the identity of that representation. -/
def degToRad (deg : ℚ) : ℚ := deg

/-- The `OptimalHalogenAngle` constant of `halogen-bonds.ts`: 180°. -/
def OptimalHalogenAngle : ℚ := degToRad 180

/-- The `OptimalAcceptorAngle` constant of `halogen-bonds.ts`: 120°. -/
def OptimalAcceptorAngle : ℚ := degToRad 120

/-- The `HalogenBondsProps` parameter record (values of `HalogenBondsParams`):
`distanceMax` in Å (default 4.0) and `angleMax` in degrees (default 30). -/
structure HalogenBondsProps where
  distanceMax : ℚ
  angleMax : ℚ
  deriving DecidableEq, Repr

/-- The `Options` record produced by `getOptions` of `halogen-bonds.ts`. -/
structure HalogenOptions where
  distanceMax : ℚ
  angleMax : ℚ
  deriving DecidableEq, Repr

/-- The `getOptions` function of `halogen-bonds.ts`: keep `distanceMax`,
convert `angleMax` to radians. -/
def getOptions (props : HalogenBondsProps) : HalogenOptions :=
  { distanceMax := props.distanceMax, angleMax := degToRad props.angleMax }

/-- The `Features.Info` view (`features.ts` / the local `Info` interface of
`halogen-bonds.ts`): a unit, the shared `types` / `members` / `offsets`
columns, and the mutable current feature index. -/
structure FtInfo where
  unit : AUnit
  types : ℕ → FeatureType
  feature : ℕ
  members : ℕ → ℕ
  offsets : ℕ → ℕ

/-- Donor side of a candidate pair: the destructuring
`[don, acc] = typeA === HalogenDonor ? [infoA, infoB] : [infoB, infoA]`
of `testHalogenBond`. -/
def donOf (infoA infoB : FtInfo) : FtInfo :=
  if infoA.types infoA.feature = FeatureType.HalogenDonor then infoA else infoB

/-- Acceptor side of a candidate pair (see `donOf`). -/
def accOf (infoA infoB : FtInfo) : FtInfo :=
  if infoA.types infoA.feature = FeatureType.HalogenDonor then infoB else infoA

/-- The `donIndex` of `testHalogenBond`: the donor feature's first member,
`don.members[don.offsets[don.feature]]`. -/
def donAtom (infoA infoB : FtInfo) : ℕ :=
  (donOf infoA infoB).members ((donOf infoA infoB).offsets (donOf infoA infoB).feature)

/-- The `accIndex` of `testHalogenBond`: the acceptor feature's first member. -/
def accAtom (infoA infoB : FtInfo) : ℕ :=
  (accOf infoA infoB).members ((accOf infoA infoB).offsets (accOf infoA infoB).feature)

/-- Tail of `testHalogenBond` in `halogen-bonds.ts`, from the same-residue
check on: reject a same-residue pair; compute the donor angles and require
exactly one (singly bonded halogen only), within the one-sided bound
`OptimalHalogenAngle - angle ≤ angleMax`; compute the acceptor angles,
require at least one, and reject when any acceptor angle `a` has
`OptimalAcceptorAngle - a > angleMax`; otherwise return `HalogenBond`. -/
def testHalogenBondPostAltloc (s : MolStructure) (infoA infoB : FtInfo)
    (opts : HalogenOptions) : Option InteractionType :=
  let don := donOf infoA infoB
  let acc := accOf infoA infoB
  let donIndex := donAtom infoA infoB
  let accIndex := accAtom infoA infoB
  if don.unit.residueIndex (don.unit.elements.getD donIndex 0) =
      acc.unit.residueIndex (acc.unit.elements.getD accIndex 0) then none
  else
    let halogenAngles := s.calcAngles don.unit donIndex acc.unit accIndex
    if halogenAngles.length ≠ 1 then none
    else if OptimalHalogenAngle - halogenAngles.getD 0 0 > opts.angleMax then none
    else
      let acceptorAngles := s.calcAngles acc.unit accIndex don.unit donIndex
      if acceptorAngles.length = 0 then none
      else if acceptorAngles.any
          (fun acceptorAngle => decide (OptimalAcceptorAngle - acceptorAngle > opts.angleMax)) then none
      else some InteractionType.HalogenBond

/-- Translation of `testHalogenBond` of `halogen-bonds.ts`: require one
`HalogenDonor` and one `HalogenAcceptor` in either order, reject a
donor/acceptor pair on the same atom, reject when both altlocs are defined
(non-empty) and differ, then run `testHalogenBondPostAltloc` (the
same-residue check and the angle tests). -/
def testHalogenBond (s : MolStructure) (infoA infoB : FtInfo)
    (opts : HalogenOptions) : Option InteractionType :=
  let typeA := infoA.types infoA.feature
  let typeB := infoB.types infoB.feature
  if !(isHalogenBond typeA typeB) then none
  else if accAtom infoA infoB = donAtom infoA infoB then none
  else
    let altD := altLoc (donOf infoA infoB).unit (donAtom infoA infoB)
    let altA := altLoc (accOf infoA infoB).unit (accAtom infoA infoB)
    if altD ≠ "" ∧ altA ≠ "" ∧ altD ≠ altA then none
    else testHalogenBondPostAltloc s infoA infoB opts

/-- The `LinkTester` interface of `links.ts`: a pre-squared distance cutoff
and the pair classifier. -/
structure LinkTester where
  maxDistanceSq : ℚ
  getType : MolStructure → FtInfo → FtInfo → ℚ → Option InteractionType

/-- The `createTester` of `HalogenBondsProvider` in `halogen-bonds.ts`. -/
def HalogenBondsProvider.createTester (props : HalogenBondsProps) : LinkTester :=
  let opts := getOptions props
  { maxDistanceSq := props.distanceMax * props.distanceMax
    getType := fun s infoA infoB _ => testHalogenBond s infoA infoB opts }

/-- Result record of the spatial lookup's `find`:
`\x7b count, indices, squaredDistances \x7d` as consumed by `links.ts`. -/
structure FindResult where
  count : ℕ
  indices : List ℕ
  squaredDistances : List ℚ

/-- The per-unit `Features` collection as consumed by `addUnitLinks`:
`count`, center coordinates, and the shared `types` / `groups` / `offsets` /
`members` columns backing `Features.Info`. -/
structure FeaturesArr where
  count : ℕ
  x : ℕ → ℚ
  y : ℕ → ℚ
  z : ℕ → ℚ
  types : ℕ → FeatureType
  groups : ℕ → FeatureGroup
  offsets : ℕ → ℕ
  members : ℕ → ℕ

/-- Squared distance between feature center `j` and a query point. -/
def dist2 (f : FeaturesArr) (j : ℕ) (qx qy qz : ℚ) : ℚ :=
  (f.x j - qx) * (f.x j - qx) + (f.y j - qy) * (f.y j - qy) +
    (f.z j - qz) * (f.z j - qz)

/-- Modelled from the spec: the spatial-grid-lookup capability
`find(x, y, z, radius) -> \x7b count, indices, squaredDistances \x7d` (spec §2
"Spatial Grid Lookup", §6), here over a feature collection's centers: it
returns every feature index within `radius` of the query point — for a
non-negative radius, `dist ≤ radius` iff `dist² ≤ radius²`; a negative
radius returns nothing — together with the squared distances, in index
order. -/
def gridFind (f : FeaturesArr) (qx qy qz radius : ℚ) : FindResult :=
  let found := (List.range f.count).filter
    (fun j => decide (0 ≤ radius ∧ dist2 f j qx qy qz ≤ radius * radius))
  { count := found.length
    indices := found
    squaredDistances := found.map (fun j => dist2 f j qx qy qz) }

/-- The `Features.Info` view over a feature collection (`Features.Info` of
`features.ts`, as built at the top of `addUnitLinks`), current feature 0. -/
def FeaturesArr.mkInfo (u : AUnit) (f : FeaturesArr) : FtInfo :=
  { unit := u, types := f.types, feature := 0
    members := f.members, offsets := f.offsets }

/-- JS `Math.max(...list)`: fold of `max` with identity `-Infinity`.  The
stand-in `-1` behaves identically here: squared cutoffs are non-negative, so
the fold over a non-empty list equals the JS maximum, and for an empty
tester list both `-Infinity` and `-1` are negative radii, for which the
lookup finds nothing. -/
def maxOfSq (l : List ℚ) : ℚ := l.foldr max (-1)

/-- Translation of `addUnitLinks` of `links.ts`, parameterized over the
lookup capability `find` (the `features.lookup3d` collaborator): for every
feature `i`, query the lookup at the center of `i` with the maximal squared
cutoff as radius, skip every returned neighbor `j ≤ i`, and give each tester
whose squared cutoff exceeds the returned squared distance a chance to
classify the pair; each acceptance is recorded through the
`IntraLinksBuilder`, whose `add` appends `(indexA, indexB, type)` to three
parallel growable arrays (`builder.ts`), so the recorded state is the list
of accepted `(i, j, type)` triples in order. -/
def addUnitLinks (find : ℚ → ℚ → ℚ → ℚ → FindResult) (s : MolStructure)
    (u : AUnit) (features : FeaturesArr) (testers : List LinkTester) :
    List (ℕ × ℕ × InteractionType) :=
  let infoA0 := features.mkInfo u
  let maxDistanceSq := maxOfSq (testers.map (fun t => t.maxDistanceSq))
  (List.range features.count).flatMap (fun i =>
    let res := find (features.x i) (features.y i) (features.z i) maxDistanceSq
    if res.count = 0 then []
    else
      let infoA := { infoA0 with feature := i }
      (List.range res.count).flatMap (fun r =>
        let j := res.indices.getD r 0
        if j ≤ i then []
        else
          let distanceSq := res.squaredDistances.getD r 0
          let infoB := { infoA0 with feature := j }
          testers.flatMap (fun tester =>
            if distanceSq < tester.maxDistanceSq then
              match tester.getType s infoA infoB distanceSq with
              | some ty => [(i, j, ty)]
              | none => []
            else [])))

/-- Specification-side instrumentation of the tester loop of
`addUnitLinks`, for the pair `(i, j)` at squared distance `dsq`: the
`(i, j, testerIndex)` triples for which the loop invokes
`tester.getType` — one entry per classifier evaluation, in evaluation
order. -/
def evalInner (dsq : ℚ) (testers : List LinkTester) (i j : ℕ) :
    List (ℕ × ℕ × ℕ) :=
  (List.range testers.length).flatMap (fun t =>
    if dsq < (testers.getD t ⟨0, fun _ _ _ _ => none⟩).maxDistanceSq then
      [(i, j, t)]
    else [])

/-- Specification-side instrumentation of one outer iteration of the pair
scan of `addUnitLinks`, for feature `i`: the classifier evaluations over
the lookup neighbors of feature `i`, skipping every neighbor `j ≤ i`. -/
def evalAt (find : ℚ → ℚ → ℚ → ℚ → FindResult) (features : FeaturesArr)
    (testers : List LinkTester) (i : ℕ) : List (ℕ × ℕ × ℕ) :=
  let res := find (features.x i) (features.y i) (features.z i)
    (maxOfSq (testers.map (fun t => t.maxDistanceSq)))
  if res.count = 0 then []
  else
    (List.range res.count).flatMap (fun r =>
      let j := res.indices.getD r 0
      if j ≤ i then []
      else evalInner (res.squaredDistances.getD r 0) testers i j)

/-- Specification-side instrumentation of the whole pair scan of
`addUnitLinks`: the list of `(i, j, testerIndex)` triples for which it
invokes `tester.getType` — one entry per classifier evaluation, in
evaluation order. -/
def evaluatedTriples (find : ℚ → ℚ → ℚ → ℚ → FindResult)
    (features : FeaturesArr) (testers : List LinkTester) :
    List (ℕ × ℕ × ℕ) :=
  (List.range features.count).flatMap (evalAt find features testers)

/-- Concrete two-atom unit used to exercise the halogen-bond tester: atoms 0
and 1 in distinct residues, no alternate locations. -/
def exUnit : AUnit :=
  { elements := [0, 1]
    x := fun n => if n = 0 then 0 else 1
    y := fun _ => 0
    z := fun _ => 0
    residueIndex := fun n => n
    typeSymbolCol := fun n => if n = 0 then "CL" else "O"
    labelAltIdCol := fun _ => ""
    bonded := fun _ => [] }

/-- Concrete unit identical to `exUnit` except that atom 0 carries altloc
"A" and atom 1 carries altloc "B". -/
def exAltUnit : AUnit :=
  { exUnit with labelAltIdCol := fun n => if n = 0 then "A" else "B" }

/-- Concrete structure whose geometry collaborator measures every angle as
180° — one bonded heavy neighbor on each side, collinear. -/
def exStruct : MolStructure := ⟨fun _ _ _ _ => [180]⟩

/-- Concrete feature columns over `exUnit`: feature 0 is a `HalogenDonor`
with single member atom 0 at the origin, feature 1 a `HalogenAcceptor` with
single member atom 1 at distance 1 along x. -/
def exFeat : FeaturesArr :=
  { count := 2
    x := fun n => if n = 0 then 0 else 1
    y := fun _ => 0
    z := fun _ => 0
    types := fun n => if n = 0 then FeatureType.HalogenDonor else FeatureType.HalogenAcceptor
    groups := fun _ => 0
    offsets := fun n => n
    members := fun n => n }

/-- Info view of `exFeat` at feature 0 (the donor). -/
def exInfoA : FtInfo := { exFeat.mkInfo exUnit with feature := 0 }

/-- Info view of `exFeat` at feature 1 (the acceptor). -/
def exInfoB : FtInfo := { exFeat.mkInfo exUnit with feature := 1 }

/-- Info view at the donor feature over the altloc-carrying unit. -/
def exAltInfoA : FtInfo := { exFeat.mkInfo exAltUnit with feature := 0 }

/-- Info view at the acceptor feature over the altloc-carrying unit. -/
def exAltInfoB : FtInfo := { exFeat.mkInfo exAltUnit with feature := 1 }

/-- Atoms the halogen-acceptor provider accepts: unit atoms whose element is
in `X = [N, O, S]` with at least one bonded atom whose element is in
`Y = [C, N, P, S]`, in scan order. -/
def halAcceptorAtoms (u : AUnit) : List ℕ :=
  (List.range u.elements.length).filter
    (fun i => halAccX.contains (typeSymbol u i) &&
      (u.bonded i).any (fun j => halAccY.contains (typeSymbol u j)))

/-- C1: the claim states that after `clearState()` followed by `k ≥ 1`
`pushMember` calls, `addState(type, group)` appends exactly one feature
whose center is the mean of the pushed coordinates and then resets the
accumulation state.  The code violates this: `pushMember` never increments
`state.count`, so `addState` always takes its `count === 0` early return.
Evaluating the embedded builder at the failing input `clearState();
pushMember(1, 2, 3, 0); addState(HalogenDonor, None)` shows that no feature
is appended (feature count 0, empty `types` and `offsets` buffers) even
though one member was pushed, and the accumulated sums are not reset. -/
theorem c1_addState_never_appends_after_pushMember :
    (FeaturesBuilder.getFeaturesData (runOps
      [.clearState, .pushMember 1 2 3 0, .addState .HalogenDonor 0])).count = 0 ∧
    (runOps [.clearState, .pushMember 1 2 3 0,
      .addState .HalogenDonor 0]).types = [] ∧
    (runOps [.clearState, .pushMember 1 2 3 0,
      .addState .HalogenDonor 0]).offsets = [] ∧
    (runOps [.clearState, .pushMember 1 2 3 0,
      .addState .HalogenDonor 0]).members = [0] ∧
    (runOps [.clearState, .pushMember 1 2 3 0,
      .addState .HalogenDonor 0]).accum = ⟨1, 2, 3, 0, 0⟩ := by
  refine ⟨?_, ?_, ?_, ?_, ?_⟩ <;>
    simp [runOps, applyOp, FeaturesBuilder.create, FeaturesBuilder.clearState,
      FeaturesBuilder.pushMember, FeaturesBuilder.addState,
      FeaturesBuilder.getFeaturesData]

/-- C2: the claim states that `addOne(type, group, x, y, z, m)` leaves the
builder in the same state as `clearState(); pushMember(x, y, z, m);
addState(type, group)`.  The code violates this (same root cause as C1):
`addOne` appends one feature, while the push-then-finalize path appends
none.  Evaluated at `type = HalogenDonor, group = None, (x, y, z) =
(1, 2, 3), m = 0` on a fresh builder, the two final builder states differ
and so do the feature counts of the data a subsequent `getFeatures` would
freeze. -/
theorem c2_addOne_differs_from_push_addState :
    (FeaturesBuilder.getFeaturesData
      (runOps [.addOne .HalogenDonor 0 1 2 3 0])).count = 1 ∧
    (FeaturesBuilder.getFeaturesData (runOps
      [.clearState, .pushMember 1 2 3 0, .addState .HalogenDonor 0])).count = 0 ∧
    runOps [.addOne .HalogenDonor 0 1 2 3 0] ≠
      runOps [.clearState, .pushMember 1 2 3 0, .addState .HalogenDonor 0] := by
  refine ⟨?_, ?_, ?_⟩ <;>
    simp [runOps, applyOp, FeaturesBuilder.create, FeaturesBuilder.clearState,
      FeaturesBuilder.pushMember, FeaturesBuilder.addState,
      FeaturesBuilder.addOne, FeaturesBuilder.getFeaturesData,
      BuilderState.mk.injEq]

/-- C3: the claim states that for every call sequence the frozen data
satisfies, in particular, that the member atoms recorded for feature `i`
are exactly `members[offsets[i] .. offsets[i+1]-1]`, so that
`offsets[i+1] - offsets[i]` is the number of members pushed for feature
`i`.  The code violates this: after `addOne(..., member 5);
pushMember(..., member 7); addState(...)` the `addState` is a silent no-op
(C1), stranding member 7 in the buffer, and the frozen data attributes it
to feature 0 — the slice for feature 0 is `[5, 7]` and
`offsets[1] - offsets[0] = 2` although exactly one member was pushed for
feature 0 (by its `addOne`). -/
theorem c3_stranded_member_breaks_partition :
    (FeaturesBuilder.getFeaturesData (runOps
      [.addOne .HalogenDonor 0 0 0 0 5, .pushMember 1 1 1 7,
        .addState .HalogenAcceptor 0])).count = 1 ∧
    (FeaturesBuilder.getFeaturesData (runOps
      [.addOne .HalogenDonor 0 0 0 0 5, .pushMember 1 1 1 7,
        .addState .HalogenAcceptor 0])).offsets = [0, 2] ∧
    (FeaturesBuilder.getFeaturesData (runOps
      [.addOne .HalogenDonor 0 0 0 0 5, .pushMember 1 1 1 7,
        .addState .HalogenAcceptor 0])).memberAtoms 0 = [5, 7] := by
  refine ⟨?_, ?_, ?_⟩ <;>
    simp [runOps, applyOp, FeaturesBuilder.create, FeaturesBuilder.clearState,
      FeaturesBuilder.pushMember, FeaturesBuilder.addState,
      FeaturesBuilder.addOne, FeaturesBuilder.getFeaturesData,
      FeaturesData.memberAtoms, sliceD, List.range']

/-- C4: the claim states that `createElementsIndex` is the exact inverse of
the members relation.  The code violates this for any feature with more
than one member: the bucket-sizing loop iterates `i < count` (the number of
features) instead of over all members, so the `indices` buffer is
under-allocated and the overflowing typed-array store is silently dropped.
Evaluated at the well-formed data with one feature whose members are atoms
0 and 1 (`count = 1`, `offsets = [0, 2]`, `members = [0, 1]`,
`elementsCount = 2`): atom 1 is a member of feature 0, yet the produced
index lists no features for atom 1. -/
theorem c4_elementsIndex_drops_second_member :
    (Features.createElementsIndex
      ⟨1, [0], [0], [0], [.HalogenAcceptor], [0], [0, 2], [0, 1]⟩ 2).offsets
        = [0, 1, 1] ∧
    (Features.createElementsIndex
      ⟨1, [0], [0], [0], [.HalogenAcceptor], [0], [0, 2], [0, 1]⟩ 2).indices
        = [0] ∧
    (⟨1, [0], [0], [0], [.HalogenAcceptor], [0], [0, 2], [0, 1]⟩ :
        FeaturesData).memberAtoms 0 = [0, 1] ∧
    (Features.createElementsIndex
      ⟨1, [0], [0], [0], [.HalogenAcceptor], [0], [0, 2], [0, 1]⟩ 2).featuresOfAtom 1
        = [] := by
  decide

/-- Helper: shifting a `List.range` offset map by one. -/
theorem range_map_add_shift (L n : ℕ) :
    (List.range (n + 1)).map (fun k => L + k) =
      L :: (List.range n).map (fun k => L + 1 + k) := by
  rw [List.range_succ_eq_map, List.map_cons, List.map_map]
  refine congrArg₂ _ (by omega) (List.map_congr_left ?_)
  intro k _
  simp [Function.comp]
  omega

/-- Helper: the provider loop body as a single guarded append. -/
theorem halAcceptorStep_eq (u : AUnit) (b : BuilderState) (i : ℕ) :
    halAcceptorStep u b i =
      if halAccX.contains (typeSymbol u i) &&
          (u.bonded i).any (fun j => halAccY.contains (typeSymbol u j)) then
        FeaturesBuilder.addOne FeatureType.HalogenAcceptor 0
          (u.x (u.elements.getD i 0)) (u.y (u.elements.getD i 0))
          (u.z (u.elements.getD i 0)) i b
      else b := by
  unfold halAcceptorStep
  by_cases hX : halAccX.contains (typeSymbol u i) <;>
    by_cases hY : (u.bonded i).any (fun j => halAccY.contains (typeSymbol u j)) <;>
    simp_all

/-- Helper: unrolling the halogen-acceptor provider loop over an arbitrary
index list. -/
theorem halAcceptors_foldl (u : AUnit) (l : List ℕ) (b : BuilderState) :
    l.foldl (halAcceptorStep u) b =
    (let good := l.filter
      (fun i => halAccX.contains (typeSymbol u i) &&
        (u.bonded i).any (fun j => halAccY.contains (typeSymbol u j)))
    { b with
      types := b.types ++ good.map (fun _ => FeatureType.HalogenAcceptor)
      groups := b.groups ++ good.map (fun _ => (0 : FeatureGroup))
      xCenters := b.xCenters ++ good.map (fun i => u.x (u.elements.getD i 0))
      yCenters := b.yCenters ++ good.map (fun i => u.y (u.elements.getD i 0))
      zCenters := b.zCenters ++ good.map (fun i => u.z (u.elements.getD i 0))
      offsets := b.offsets ++
        (List.range good.length).map (fun k => b.members.length + k)
      members := b.members ++ good }) := by
  induction l generalizing b with
  | nil => simp
  | cons i t ih =>
    rw [List.foldl_cons, List.filter_cons, halAcceptorStep_eq]
    by_cases hp : halAccX.contains (typeSymbol u i) &&
        (u.bonded i).any (fun j => halAccY.contains (typeSymbol u j))
    · rw [if_pos hp, ih]
      simp only [hp, if_true]
      simp [FeaturesBuilder.addOne, range_map_add_shift, Nat.add_assoc]
    · rw [if_neg hp, ih]
      simp only [hp, if_false]
      simp

/-- C10: `addUnitHalogenAcceptors` appends exactly one `HalogenAcceptor`
feature — with the atom's own position as center and that atom as its
single member — for each unit atom whose element is N, O or S with at least
one bonded atom whose element is C, N, P or S, and appends nothing for any
other atom: the resulting builder extends the input builder by the accepted
atoms in scan order, each with a fresh single-member offset slot, and an
atom is accepted exactly under the claimed element / bonded-neighbor
criterion. -/
theorem c10_halogenAcceptors_characterization (s : MolStructure) (u : AUnit)
    (b : BuilderState) :
    (addUnitHalogenAcceptors s u b =
      { b with
        types := b.types ++
          (halAcceptorAtoms u).map (fun _ => FeatureType.HalogenAcceptor)
        groups := b.groups ++ (halAcceptorAtoms u).map (fun _ => (0 : FeatureGroup))
        xCenters := b.xCenters ++
          (halAcceptorAtoms u).map (fun i => u.x (u.elements.getD i 0))
        yCenters := b.yCenters ++
          (halAcceptorAtoms u).map (fun i => u.y (u.elements.getD i 0))
        zCenters := b.zCenters ++
          (halAcceptorAtoms u).map (fun i => u.z (u.elements.getD i 0))
        offsets := b.offsets ++
          (List.range (halAcceptorAtoms u).length).map
            (fun k => b.members.length + k)
        members := b.members ++ halAcceptorAtoms u }) ∧
    ∀ i, i ∈ halAcceptorAtoms u ↔
      i < u.elements.length ∧ typeSymbol u i ∈ halAccX ∧
        ∃ j ∈ u.bonded i, typeSymbol u j ∈ halAccY := by
  constructor
  · simpa [addUnitHalogenAcceptors, halAcceptorAtoms] using
      halAcceptors_foldl u (List.range u.elements.length) b
  · intro i
    simp [halAcceptorAtoms, List.mem_filter, List.mem_range, and_assoc,
      List.any_eq_true]

/-- C9: the interaction computation is deterministic — the embedded
`addUnitHalogenDonors`, `addUnitHalogenAcceptors` and `addUnitLinks` are
pure functions of the structure, unit, builder state, features and testers
(the sources read only immutable inputs and their own local state), so two
runs on identical inputs produce identical feature arrays and identical
edge lists, in identical order. -/
theorem c9_two_run_determinism (find : ℚ → ℚ → ℚ → ℚ → FindResult)
    (s : MolStructure) (u : AUnit) (f : FeaturesArr)
    (testers : List LinkTester) (b1 b2 : BuilderState) (h : b1 = b2) :
    addUnitHalogenDonors s u b1 = addUnitHalogenDonors s u b2 ∧
    addUnitHalogenAcceptors s u b1 = addUnitHalogenAcceptors s u b2 ∧
    addUnitLinks find s u f testers = addUnitLinks find s u f testers := by
  subst h
  exact ⟨rfl, rfl, rfl⟩

/-- Witness for C9 at a concrete structure, unit, feature set and fresh
builder. -/
theorem c9_two_run_determinism_witness :
    FeaturesBuilder.create = FeaturesBuilder.create ∧
    (addUnitHalogenDonors exStruct exUnit FeaturesBuilder.create =
        addUnitHalogenDonors exStruct exUnit FeaturesBuilder.create ∧
      addUnitHalogenAcceptors exStruct exUnit FeaturesBuilder.create =
        addUnitHalogenAcceptors exStruct exUnit FeaturesBuilder.create ∧
      addUnitLinks (gridFind exFeat) exStruct exUnit exFeat [] =
        addUnitLinks (gridFind exFeat) exStruct exUnit exFeat []) :=
  ⟨rfl, c9_two_run_determinism (gridFind exFeat) exStruct exUnit exFeat []
    FeaturesBuilder.create FeaturesBuilder.create rfl⟩

/-- C8: for a candidate pair that reaches the alternate-location check (the
feature types form a donor/acceptor pair and the two atoms differ), the
tester rejects on altloc grounds exactly when both the donor atom and the
acceptor atom have a defined (non-empty) altloc and those altlocs differ;
otherwise the pair is treated as compatible and testing proceeds to the
remaining checks (`testHalogenBondPostAltloc`: the same-residue check and
the angle tests). -/
theorem c8_altloc_reject_iff_both_defined_and_differ (s : MolStructure)
    (infoA infoB : FtInfo) (opts : HalogenOptions)
    (hty : isHalogenBond (infoA.types infoA.feature) (infoB.types infoB.feature) = true)
    (hne : accAtom infoA infoB ≠ donAtom infoA infoB) :
    (altLoc (donOf infoA infoB).unit (donAtom infoA infoB) ≠ "" ∧
        altLoc (accOf infoA infoB).unit (accAtom infoA infoB) ≠ "" ∧
        altLoc (donOf infoA infoB).unit (donAtom infoA infoB) ≠
          altLoc (accOf infoA infoB).unit (accAtom infoA infoB) →
      testHalogenBond s infoA infoB opts = none) ∧
    (¬(altLoc (donOf infoA infoB).unit (donAtom infoA infoB) ≠ "" ∧
        altLoc (accOf infoA infoB).unit (accAtom infoA infoB) ≠ "" ∧
        altLoc (donOf infoA infoB).unit (donAtom infoA infoB) ≠
          altLoc (accOf infoA infoB).unit (accAtom infoA infoB)) →
      testHalogenBond s infoA infoB opts =
        testHalogenBondPostAltloc s infoA infoB opts) := by
  constructor
  · intro h
    simp [testHalogenBond, hty, hne, h]
  · intro h
    simp [testHalogenBond, hty, hne, h]

/-- Witness for C8 at a concrete pair whose donor atom carries altloc "A"
and whose acceptor atom carries altloc "B": the pair is rejected. -/
theorem c8_altloc_witness :
    isHalogenBond (exAltInfoA.types exAltInfoA.feature)
        (exAltInfoB.types exAltInfoB.feature) = true ∧
    accAtom exAltInfoA exAltInfoB ≠ donAtom exAltInfoA exAltInfoB ∧
    testHalogenBond exStruct exAltInfoA exAltInfoB (getOptions ⟨4, 30⟩) = none :=
  ⟨by decide, by decide,
    (c8_altloc_reject_iff_both_defined_and_differ exStruct exAltInfoA exAltInfoB
        (getOptions ⟨4, 30⟩) (by decide) (by decide)).1
      ⟨by decide, by decide, by decide⟩⟩

/-- C5 (amended): the halogen-bonds tester returns `HalogenBond` for a
donor/acceptor feature pair only if exactly one donor angle is defined (the
donor halogen has exactly one bonded heavy neighbor) with
`180° - angle ≤ angleMax`, and at least one acceptor angle is defined with
every acceptor angle satisfying the one-sided bound
`120° - angle ≤ angleMax`; and it returns no interaction otherwise.  For
the donor the one-sided bound coincides with `|180° - angle| ≤ angleMax`
because measured angles never exceed 180°, but acceptor angles above 120°
always pass, unlike the claimed `|120° - angle| ≤ angleMax`. -/
theorem c5_halogen_angle_tests_one_sided (s : MolStructure)
    (infoA infoB : FtInfo) (opts : HalogenOptions) (ty : InteractionType)
    (h : testHalogenBond s infoA infoB opts = some ty) :
    ty = InteractionType.HalogenBond ∧
    (s.calcAngles (donOf infoA infoB).unit (donAtom infoA infoB)
        (accOf infoA infoB).unit (accAtom infoA infoB)).length = 1 ∧
    OptimalHalogenAngle -
        (s.calcAngles (donOf infoA infoB).unit (donAtom infoA infoB)
          (accOf infoA infoB).unit (accAtom infoA infoB)).getD 0 0 ≤
      opts.angleMax ∧
    (s.calcAngles (accOf infoA infoB).unit (accAtom infoA infoB)
        (donOf infoA infoB).unit (donAtom infoA infoB)).length ≠ 0 ∧
    ∀ a ∈ s.calcAngles (accOf infoA infoB).unit (accAtom infoA infoB)
        (donOf infoA infoB).unit (donAtom infoA infoB),
      OptimalAcceptorAngle - a ≤ opts.angleMax := by
  simp only [testHalogenBond, testHalogenBondPostAltloc] at h
  split_ifs at h with h1 h2 h3 h4 h5 h6 h7 h8
  injection h with h
  subst h
  refine ⟨rfl, ?_, not_lt.mp h6, h7, ?_⟩
  · omega
  · intro a ha
    rw [List.any_eq_true] at h8
    push_neg at h8
    have h9 := h8 a ha
    simp only [ne_eq, decide_eq_true_eq] at h9
    exact not_lt.mp h9

/-- Counterexample to C5 as stated: at a concrete donor/acceptor pair whose
single donor angle measures 180° and whose single acceptor angle also
measures 180°, with `angleMax = 30°`, the tester accepts
(`120° - 180° = -60° ≤ 30°`: the code's acceptor test is one-sided), yet
the claimed two-sided acceptor condition `|120° - angle| ≤ angleMax` fails
(`|120° - 180°| = 60° > 30°`). -/
theorem c5_counterexample_two_sided_acceptor_bound :
    testHalogenBond exStruct exInfoA exInfoB (getOptions ⟨4, 30⟩) =
      some InteractionType.HalogenBond ∧
    ¬ ∀ a ∈ exStruct.calcAngles (accOf exInfoA exInfoB).unit
        (accAtom exInfoA exInfoB) (donOf exInfoA exInfoB).unit
        (donAtom exInfoA exInfoB),
      |OptimalAcceptorAngle - a| ≤ (getOptions ⟨4, 30⟩).angleMax := by
  constructor
  · norm_num [testHalogenBond, testHalogenBondPostAltloc, donOf, accOf,
      donAtom, accAtom, isHalogenBond, exStruct, exInfoA, exInfoB, exFeat,
      FeaturesArr.mkInfo, exUnit, altLoc, typeSymbol, OptimalHalogenAngle,
      OptimalAcceptorAngle, degToRad, getOptions]
  · norm_num [exStruct, exInfoA, exInfoB, OptimalAcceptorAngle, degToRad,
      getOptions]

/-- Witness for the amended C5 at the concrete accepting pair of the
counterexample. -/
theorem c5_one_sided_witness :
    testHalogenBond exStruct exInfoA exInfoB (getOptions ⟨4, 30⟩) =
      some InteractionType.HalogenBond ∧
    (InteractionType.HalogenBond = InteractionType.HalogenBond ∧
      (exStruct.calcAngles (donOf exInfoA exInfoB).unit
          (donAtom exInfoA exInfoB) (accOf exInfoA exInfoB).unit
          (accAtom exInfoA exInfoB)).length = 1 ∧
      OptimalHalogenAngle -
          (exStruct.calcAngles (donOf exInfoA exInfoB).unit
            (donAtom exInfoA exInfoB) (accOf exInfoA exInfoB).unit
            (accAtom exInfoA exInfoB)).getD 0 0 ≤ (getOptions ⟨4, 30⟩).angleMax ∧
      (exStruct.calcAngles (accOf exInfoA exInfoB).unit
          (accAtom exInfoA exInfoB) (donOf exInfoA exInfoB).unit
          (donAtom exInfoA exInfoB)).length ≠ 0 ∧
      ∀ a ∈ exStruct.calcAngles (accOf exInfoA exInfoB).unit
          (accAtom exInfoA exInfoB) (donOf exInfoA exInfoB).unit
          (donAtom exInfoA exInfoB),
        OptimalAcceptorAngle - a ≤ (getOptions ⟨4, 30⟩).angleMax) :=
  ⟨by norm_num [testHalogenBond, testHalogenBondPostAltloc, donOf, accOf,
      donAtom, accAtom, isHalogenBond, exStruct, exInfoA, exInfoB, exFeat,
      FeaturesArr.mkInfo, exUnit, altLoc, typeSymbol, OptimalHalogenAngle,
      OptimalAcceptorAngle, degToRad, getOptions],
    c5_halogen_angle_tests_one_sided exStruct exInfoA exInfoB
      (getOptions ⟨4, 30⟩) InteractionType.HalogenBond
      (by norm_num [testHalogenBond, testHalogenBondPostAltloc, donOf, accOf,
        donAtom, accAtom, isHalogenBond, exStruct, exInfoA, exInfoB, exFeat,
        FeaturesArr.mkInfo, exUnit, altLoc, typeSymbol, OptimalHalogenAngle,
        OptimalAcceptorAngle, degToRad, getOptions])⟩

/-- Helper: a `flatMap` is duplicate-free when every block is
duplicate-free and a key computable from each element identifies its block
injectively. -/
theorem nodup_flatMap_key {α β γ : Type _} (l : List α) (F : α → List β)
    (tag : α → γ) (keyOf : β → γ)
    (hl : l.Nodup)
    (htag : ∀ x ∈ l, ∀ y ∈ l, tag x = tag y → x = y)
    (hkey : ∀ x ∈ l, ∀ e ∈ F x, keyOf e = tag x)
    (hF : ∀ x ∈ l, (F x).Nodup) :
    (l.flatMap F).Nodup := by
  induction l with
  | nil => simp
  | cons x t ih =>
    rw [List.flatMap_cons, List.nodup_append]
    have hxt : x ∉ t := (List.nodup_cons.mp hl).1
    refine ⟨hF x (List.mem_cons_self x t), ?_, ?_⟩
    · exact ih (List.nodup_cons.mp hl).2
        (fun a ha b hb =>
          htag a (List.mem_cons_of_mem x ha) b (List.mem_cons_of_mem x hb))
        (fun a ha e he => hkey a (List.mem_cons_of_mem x ha) e he)
        (fun a ha => hF a (List.mem_cons_of_mem x ha))
    · intro e he hee
      rw [List.mem_flatMap] at hee
      obtain ⟨y, hy, hey⟩ := hee
      have h1 := hkey x (List.mem_cons_self x t) e he
      have h2 := hkey y (List.mem_cons_of_mem x hy) e hey
      have hxy : x = y := htag x (List.mem_cons_self x t)
        y (List.mem_cons_of_mem x hy) (h1.symm.trans h2)
      exact hxt (hxy ▸ hy)

/-- Helper: every evaluation recorded by `evalInner` is on the given pair. -/
theorem evalInner_mem (dsq : ℚ) (testers : List LinkTester) (i j : ℕ)
    (e : ℕ × ℕ × ℕ) (he : e ∈ evalInner dsq testers i j) :
    e.1 = i ∧ e.2.1 = j := by
  simp only [evalInner, List.mem_flatMap, List.mem_range] at he
  obtain ⟨t, ht, he⟩ := he
  by_cases h : dsq < (testers.getD t ⟨0, fun _ _ _ _ => none⟩).maxDistanceSq
  · rw [if_pos h, List.mem_singleton] at he
    subst he
    exact ⟨rfl, rfl⟩
  · rw [if_neg h] at he
    exact absurd he (List.not_mem_nil e)

/-- Helper: `evalInner` evaluates each tester at most once. -/
theorem evalInner_nodup (dsq : ℚ) (testers : List LinkTester) (i j : ℕ) :
    (evalInner dsq testers i j).Nodup := by
  refine nodup_flatMap_key _ _ (fun t => t) (fun e => e.2.2)
    (List.nodup_range _) (fun x _ y _ h => h) ?_ ?_
  · intro t _ e he
    by_cases h : dsq < (testers.getD t ⟨0, fun _ _ _ _ => none⟩).maxDistanceSq
    · rw [if_pos h, List.mem_singleton] at he
      subst he
      rfl
    · rw [if_neg h] at he
      exact absurd he (List.not_mem_nil e)
  · intro t _
    by_cases h : dsq < (testers.getD t ⟨0, fun _ _ _ _ => none⟩).maxDistanceSq
    · rw [if_pos h]
      exact List.nodup_singleton _
    · rw [if_neg h]
      exact List.nodup_nil

/-- Helper: every evaluation of outer iteration `i` is on a pair
`(i, j)` with `j > i`. -/
theorem evalAt_mem (find : ℚ → ℚ → ℚ → ℚ → FindResult)
    (features : FeaturesArr) (testers : List LinkTester) (i : ℕ)
    (e : ℕ × ℕ × ℕ) (he : e ∈ evalAt find features testers i) :
    e.1 = i ∧ i < e.2.1 := by
  simp only [evalAt] at he
  split at he
  · exact absurd he (List.not_mem_nil e)
  · simp only [List.mem_flatMap, List.mem_range] at he
    obtain ⟨r, hr, he⟩ := he
    split at he
    · exact absurd he (List.not_mem_nil e)
    · rename_i hji
      obtain ⟨h1, h2⟩ := evalInner_mem _ _ _ _ e he
      exact ⟨h1, by omega⟩

/-- Helper: one outer iteration never evaluates the same neighbor twice, as
long as the lookup reports each neighbor at most once (`indices` is
duplicate-free and `count` is its length). -/
theorem evalAt_nodup (find : ℚ → ℚ → ℚ → ℚ → FindResult)
    (features : FeaturesArr) (testers : List LinkTester) (i : ℕ)
    (hnd : ∀ qx qy qz r, (find qx qy qz r).indices.Nodup)
    (hlen : ∀ qx qy qz r,
      (find qx qy qz r).count = (find qx qy qz r).indices.length) :
    (evalAt find features testers i).Nodup := by
  simp only [evalAt]
  split
  · exact List.nodup_nil
  · refine nodup_flatMap_key _ _
      (fun r => (find (features.x i) (features.y i) (features.z i)
        (maxOfSq (testers.map (fun t => t.maxDistanceSq)))).indices.getD r 0)
      (fun e => e.2.1) (List.nodup_range _) ?_ ?_ ?_
    · intro r hr q hq h
      simp only at h
      rw [List.mem_range] at hr hq
      rw [hlen] at hr hq
      rw [List.getD_eq_getElem _ 0 hr, List.getD_eq_getElem _ 0 hq] at h
      exact ((hnd _ _ _ _).getElem_inj_iff).mp h
    · intro r _ e he
      split at he
      · exact absurd he (List.not_mem_nil e)
      · exact (evalInner_mem _ _ _ _ e he).2
    · intro r _
      split
      · exact List.nodup_nil
      · exact evalInner_nodup _ _ _ _

/-- Helper: every recorded evaluation is on an ordered pair `i < j`. -/
theorem evaluatedTriples_mem (find : ℚ → ℚ → ℚ → ℚ → FindResult)
    (features : FeaturesArr) (testers : List LinkTester)
    (e : ℕ × ℕ × ℕ) (he : e ∈ evaluatedTriples find features testers) :
    e.1 < e.2.1 := by
  simp only [evaluatedTriples, List.mem_flatMap, List.mem_range] at he
  obtain ⟨i, _, he⟩ := he
  obtain ⟨h1, h2⟩ := evalAt_mem _ _ _ _ e he
  omega

/-- Helper: the full evaluation list is duplicate-free under the same
lookup hypotheses. -/
theorem evaluatedTriples_nodup (find : ℚ → ℚ → ℚ → ℚ → FindResult)
    (features : FeaturesArr) (testers : List LinkTester)
    (hnd : ∀ qx qy qz r, (find qx qy qz r).indices.Nodup)
    (hlen : ∀ qx qy qz r,
      (find qx qy qz r).count = (find qx qy qz r).indices.length) :
    (evaluatedTriples find features testers).Nodup := by
  refine nodup_flatMap_key _ _ (fun i => i) (fun e => e.1)
    (List.nodup_range _) (fun x _ y _ h => h) ?_ ?_
  · intro i _ e he
    exact (evalAt_mem _ _ _ _ e he).1
  · intro i _
    exact evalAt_nodup find features testers i hnd hlen

/-- Helper: a duplicate-free list in which any two elements satisfying `p`
coincide contains at most one element satisfying `p`. -/
theorem countP_le_one_of_unique {α : Type _} (l : List α) (p : α → Bool)
    (hnd : l.Nodup) (huniq : ∀ x ∈ l, ∀ y ∈ l, p x → p y → x = y) :
    l.countP p ≤ 1 := by
  rw [List.countP_eq_length_filter]
  rcases hf : l.filter p with _ | ⟨x, t⟩
  · simp
  · rcases t with _ | ⟨y, q⟩
    · simp
    · exfalso
      have hnf := hnd.filter p
      rw [hf, List.nodup_cons] at hnf
      have hx : x ∈ l.filter p := by rw [hf]; exact List.mem_cons_self ..
      have hy : y ∈ l.filter p := by
        rw [hf]
        exact List.mem_cons_of_mem x (List.mem_cons_self ..)
      have hxl := List.mem_filter.mp hx
      have hyl := List.mem_filter.mp hy
      have hxy : x = y := huniq x hxl.1 y hyl.1 hxl.2 hyl.2
      exact hnf.1 (hxy ▸ List.mem_cons_self ..)

/-- Helper: every edge recorded by the pair scan is an ordered pair
`indexA < indexB`, because the scan skips every returned neighbor
`j ≤ i`. -/
theorem addUnitLinks_fst_lt_snd (find : ℚ → ℚ → ℚ → ℚ → FindResult)
    (s : MolStructure) (u : AUnit) (features : FeaturesArr)
    (testers : List LinkTester) (e : ℕ × ℕ × InteractionType)
    (he : e ∈ addUnitLinks find s u features testers) : e.1 < e.2.1 := by
  simp only [addUnitLinks, List.mem_flatMap, List.mem_range] at he
  obtain ⟨i, hi, he⟩ := he
  split at he
  · exact absurd he (List.not_mem_nil e)
  · simp only [List.mem_flatMap, List.mem_range] at he
    obtain ⟨r, hr, he⟩ := he
    split at he
    · exact absurd he (List.not_mem_nil e)
    · rename_i hji
      simp only [List.mem_flatMap] at he
      obtain ⟨tester, htt, he⟩ := he
      split at he
      · split at he
        · rw [List.mem_singleton] at he
          subst he
          exact Nat.lt_of_not_le hji
        · exact absurd he (List.not_mem_nil e)
      · exact absurd he (List.not_mem_nil e)

/-- C7: every intra-unit edge recorded by `addUnitLinks` satisfies
`indexA < indexB` — in particular no self-loops — because the pair scan
skips every returned neighbor `j ≤ i`; and, provided the lookup reports
each neighbor at most once per query (`indices` duplicate-free, `count` its
length, as the grid lookup guarantees), each unordered feature pair is
evaluated against each tester at most once over the whole scan. -/
theorem c7_ordered_edges_and_single_evaluation
    (find : ℚ → ℚ → ℚ → ℚ → FindResult) (s : MolStructure) (u : AUnit)
    (features : FeaturesArr) (testers : List LinkTester)
    (hnd : ∀ qx qy qz r, (find qx qy qz r).indices.Nodup)
    (hlen : ∀ qx qy qz r,
      (find qx qy qz r).count = (find qx qy qz r).indices.length) :
    (∀ e ∈ addUnitLinks find s u features testers, e.1 < e.2.1) ∧
    (∀ a b t, (evaluatedTriples find features testers).countP
        (fun e => decide (((e.1 = a ∧ e.2.1 = b) ∨ (e.1 = b ∧ e.2.1 = a)) ∧
          e.2.2 = t)) ≤ 1) := by
  constructor
  · exact fun e he => addUnitLinks_fst_lt_snd find s u features testers e he
  · intro a b t
    refine countP_le_one_of_unique _ _
      (evaluatedTriples_nodup find features testers hnd hlen) ?_
    intro x hx y hy hpx hpy
    rw [decide_eq_true_eq] at hpx hpy
    have hxo := evaluatedTriples_mem find features testers x hx
    have hyo := evaluatedTriples_mem find features testers y hy
    obtain ⟨x1, x2, x3⟩ := x
    obtain ⟨y1, y2, y3⟩ := y
    simp only [Prod.mk.injEq]
    simp only at hpx hpy hxo hyo
    omega

/-- Witness for C7 at a concrete constant lookup reporting the neighbor
pair `[0, 1]` with squared distances `[0, 1]`, the concrete halogen-bond
feature set and one halogen-bond tester. -/
theorem c7_ordered_edges_witness :
    ([0, 1] : List ℕ).Nodup ∧
    ((evaluatedTriples (fun _ _ _ _ => FindResult.mk 2 [0, 1] [0, 1]) exFeat
        [HalogenBondsProvider.createTester ⟨2, 30⟩]).countP
      (fun e => decide (((e.1 = 0 ∧ e.2.1 = 1) ∨ (e.1 = 1 ∧ e.2.1 = 0)) ∧
        e.2.2 = 0)) ≤ 1) :=
  ⟨by decide,
    (c7_ordered_edges_and_single_evaluation
      (fun _ _ _ _ => FindResult.mk 2 [0, 1] [0, 1]) exStruct exUnit exFeat
      [HalogenBondsProvider.createTester ⟨2, 30⟩]
      (fun _ _ _ _ => show ([0, 1] : List ℕ).Nodup by decide)
      (fun _ _ _ _ => rfl)).2 0 1 0⟩

/-- Helper: membership in a grid-lookup result. -/
theorem gridFind_mem (f : FeaturesArr) (qx qy qz radius : ℚ) (j : ℕ) :
    j ∈ (gridFind f qx qy qz radius).indices ↔
      j < f.count ∧ 0 ≤ radius ∧ dist2 f j qx qy qz ≤ radius * radius := by
  simp [gridFind, List.mem_filter, List.mem_range, and_assoc]

/-- Helper: the lookup's `count` is the length of its `indices`. -/
theorem gridFind_count_eq (f : FeaturesArr) (qx qy qz radius : ℚ) :
    (gridFind f qx qy qz radius).count =
      (gridFind f qx qy qz radius).indices.length := rfl

/-- Helper: a grid-lookup result lists each neighbor at most once. -/
theorem gridFind_indices_nodup (f : FeaturesArr) (qx qy qz radius : ℚ) :
    (gridFind f qx qy qz radius).indices.Nodup :=
  (List.nodup_range _).filter _

/-- Helper: the lookup's squared distances are the squared distances of the
listed neighbors to the query point. -/
theorem gridFind_sqdist (f : FeaturesArr) (qx qy qz radius : ℚ) (r : ℕ)
    (hr : r < (gridFind f qx qy qz radius).indices.length) :
    (gridFind f qx qy qz radius).squaredDistances.getD r 0 =
      dist2 f ((gridFind f qx qy qz radius).indices.getD r 0) qx qy qz := by
  have hr2 : r < (gridFind f qx qy qz radius).squaredDistances.length := by
    simpa [gridFind] using hr
  rw [List.getD_eq_getElem _ 0 hr2, List.getD_eq_getElem _ 0 hr]
  simp [gridFind]

/-- Helper: the halogen-bond radius fold — `Math.max` over the single
tester's pre-squared cutoff. -/
theorem maxOfSq_halogen (d am : ℚ) :
    maxOfSq (List.map (fun t => t.maxDistanceSq)
      [HalogenBondsProvider.createTester ⟨d, am⟩]) = d * d := by
  have h : (-1 : ℚ) ≤ d * d := le_trans (by norm_num) (mul_self_nonneg d)
  simp [maxOfSq, HalogenBondsProvider.createTester, sup_eq_left.mpr h]

/-- Helper: the halogen-bond tester's classifier only reads `angleMax`; the
`distanceMax` carried by the options record is dead there. -/
theorem testHalogenBond_angleMax_congr (s : MolStructure) (a b : FtInfo)
    (o1 o2 : HalogenOptions) (h : o1.angleMax = o2.angleMax) :
    testHalogenBond s a b o1 = testHalogenBond s a b o2 := by
  obtain ⟨dm1, am1⟩ := o1
  obtain ⟨dm2, am2⟩ := o2
  simp only at h
  cases h
  rfl

/-- Helper: characterization of the edges recorded by the pair scan run
with the grid lookup and a single halogen-bond tester. -/
theorem mem_addUnitLinks_halogen (s : MolStructure) (u : AUnit)
    (f : FeaturesArr) (d am : ℚ) (e : ℕ × ℕ × InteractionType) :
    e ∈ addUnitLinks (gridFind f) s u f
        [HalogenBondsProvider.createTester ⟨d, am⟩] ↔
      e.1 < f.count ∧ e.2.1 < f.count ∧ e.1 < e.2.1 ∧
      dist2 f e.2.1 (f.x e.1) (f.y e.1) (f.z e.1) ≤ (d * d) * (d * d) ∧
      dist2 f e.2.1 (f.x e.1) (f.y e.1) (f.z e.1) < d * d ∧
      testHalogenBond s { f.mkInfo u with feature := e.1 }
        { f.mkInfo u with feature := e.2.1 } (getOptions ⟨d, am⟩) =
        some e.2.2 := by
  obtain ⟨i, j, ty⟩ := e
  simp only
  constructor
  · intro he
    simp only [addUnitLinks, List.mem_flatMap, List.mem_range,
      maxOfSq_halogen] at he
    obtain ⟨i0, hi0, he⟩ := he
    split at he
    · exact absurd he (List.not_mem_nil _)
    · simp only [List.mem_flatMap, List.mem_range] at he
      obtain ⟨r, hr, he⟩ := he
      rw [gridFind_count_eq] at hr
      split at he
      · exact absurd he (List.not_mem_nil _)
      · rename_i hji
        simp only [List.flatMap_cons, List.flatMap_nil, List.append_nil] at he
        split at he
        · rename_i hguard
          split at he
          · rename_i ty0 hty0
            rw [List.mem_singleton] at he
            simp only [Prod.mk.injEq] at he
            obtain ⟨rfl, rfl, rfl⟩ := he
            have hjmem : (gridFind f (f.x i) (f.y i) (f.z i)
                (d * d)).indices.getD r 0 ∈
                (gridFind f (f.x i) (f.y i) (f.z i) (d * d)).indices := by
              rw [List.getD_eq_getElem _ 0 hr]
              exact List.getElem_mem hr
            rw [gridFind_mem] at hjmem
            simp only [HalogenBondsProvider.createTester] at hguard hty0
            rw [gridFind_sqdist _ _ _ _ _ _ hr] at hguard
            refine ⟨hi0, hjmem.1, by omega, hjmem.2.2, hguard, ?_⟩
            exact hty0
          · exact absurd he (List.not_mem_nil _)
        · exact absurd he (List.not_mem_nil _)
  · rintro ⟨h1, h2, h3, h4, h5, h6⟩
    simp only [addUnitLinks, List.mem_flatMap, List.mem_range,
      maxOfSq_halogen]
    refine ⟨i, h1, ?_⟩
    have hjmem : j ∈ (gridFind f (f.x i) (f.y i) (f.z i) (d * d)).indices :=
      (gridFind_mem f _ _ _ _ j).mpr ⟨h2, mul_self_nonneg d, h4⟩
    have hcount : ¬ (gridFind f (f.x i) (f.y i) (f.z i) (d * d)).count = 0 := by
      rw [gridFind_count_eq]
      exact (List.length_pos_of_mem hjmem).ne'
    rw [if_neg hcount]
    obtain ⟨r, hrlen, hgetr⟩ := List.mem_iff_getElem.mp hjmem
    simp only [List.mem_flatMap, List.mem_range]
    refine ⟨r, by rw [gridFind_count_eq]; exact hrlen, ?_⟩
    have hj : (gridFind f (f.x i) (f.y i) (f.z i) (d * d)).indices.getD r 0 = j := by
      rw [List.getD_eq_getElem _ 0 hrlen]
      exact hgetr
    rw [hj, if_neg (by omega)]
    simp only [List.flatMap_cons, List.flatMap_nil, List.append_nil]
    have hdsq : (gridFind f (f.x i) (f.y i) (f.z i)
        (d * d)).squaredDistances.getD r 0 =
        dist2 f j (f.x i) (f.y i) (f.z i) := by
      rw [gridFind_sqdist _ _ _ _ _ _ hrlen, hj]
    rw [hdsq]
    simp only [HalogenBondsProvider.createTester]
    rw [if_pos h5, h6]
    exact List.mem_singleton.mpr rfl

/-- C6: cutoff monotonicity for the halogen-bond family — for parameter
sets differing only in `distanceMax`, with `0 ≤ d1 ≤ d2` and `angleMax`
fixed, every intra-unit edge recorded by `addUnitLinks` with the tester
created from `distanceMax = d1` is also recorded, with the same interaction
type, with the tester created from `distanceMax = d2`: a larger cutoff
widens both the lookup radius and the per-tester squared-distance guard,
and the classifier itself never reads `distanceMax`. -/
theorem c6_distanceMax_superset (s : MolStructure) (u : AUnit)
    (f : FeaturesArr) (d1 d2 am : ℚ) (h0 : 0 ≤ d1) (h12 : d1 ≤ d2) :
    ∀ e ∈ addUnitLinks (gridFind f) s u f
        [HalogenBondsProvider.createTester ⟨d1, am⟩],
      e ∈ addUnitLinks (gridFind f) s u f
        [HalogenBondsProvider.createTester ⟨d2, am⟩] := by
  intro e he
  rw [mem_addUnitLinks_halogen] at he ⊢
  obtain ⟨h1, h2, h3, h4, h5, h6⟩ := he
  have hd : d1 * d1 ≤ d2 * d2 := mul_le_mul h12 h12 h0 (le_trans h0 h12)
  have hdd : (d1 * d1) * (d1 * d1) ≤ (d2 * d2) * (d2 * d2) :=
    mul_le_mul hd hd (mul_self_nonneg d1) (mul_self_nonneg d2)
  refine ⟨h1, h2, h3, le_trans h4 hdd, lt_of_lt_of_le h5 hd, ?_⟩
  rw [← h6]
  exact (testHalogenBond_angleMax_congr _ _ _ _ _ rfl)

/-- Witness for C6: with `d1 = 2 ≤ 3 = d2` and `angleMax = 30°`, the
concrete donor/acceptor edge recorded at `distanceMax = 2` is recorded at
`distanceMax = 3` as well. -/
theorem c6_distanceMax_superset_witness :
    (0 : ℚ) ≤ 2 ∧ (2 : ℚ) ≤ 3 ∧
    (0, 1, InteractionType.HalogenBond) ∈
      addUnitLinks (gridFind exFeat) exStruct exUnit exFeat
        [HalogenBondsProvider.createTester ⟨3, 30⟩] :=
  ⟨by norm_num, by norm_num,
    c6_distanceMax_superset exStruct exUnit exFeat 2 3 30 (by norm_num)
      (by norm_num) (0, 1, InteractionType.HalogenBond)
      ((mem_addUnitLinks_halogen exStruct exUnit exFeat 2 30
          (0, 1, InteractionType.HalogenBond)).mpr
        ⟨by norm_num [exFeat], by norm_num [exFeat], by norm_num,
          by norm_num [dist2, exFeat],
          by norm_num [dist2, exFeat],
          by norm_num [testHalogenBond, testHalogenBondPostAltloc, donOf,
            accOf, donAtom, accAtom, isHalogenBond, exStruct, exFeat,
            FeaturesArr.mkInfo, exUnit, altLoc, typeSymbol,
            OptimalHalogenAngle, OptimalAcceptorAngle, degToRad,
            getOptions]⟩)⟩
